import Mathlib

/-!
Verification development for the playlist sync engine in `src/main.py`
(repository yannkb/sync-jam-playlist).

The Python source is shallowly embedded: every external effect (process
invocations, the directory listing, the persisted snapshot file, per-item
subprocess results) is an explicit input, and the glue code of `main.py` is
translated line by line into pure Lean functions that keep the source's
names.  Python strings are modelled as `List Char`, Python string methods
(`split`, `replace`, `endswith`) are modelled by fuel-structural recursions
with the exact leftmost non-overlapping semantics of CPython, and machine
integers are `Nat`/`Int`.
-/

set_option autoImplicit false

namespace SyncJam

/-- Python strings, modelled as lists of characters. -/
abbrev Str := List Char

/-- Bool test that `pat` is an initial run of `s` (what CPython's substring
search checks at each scan position). -/
def leadsWith : Str → Str → Bool
  | [], _ => true
  | _ :: _, [] => false
  | p :: ps, c :: cs => (p == c) && leadsWith ps cs

/-- Bool test that `pat` occurs contiguously somewhere in `s`
(Python `pat in s`). -/
def containsSub (pat : Str) : Str → Bool
  | [] => leadsWith pat []
  | c :: cs => leadsWith pat (c :: cs) || containsSub pat cs

/-- Python `s.endswith(pat)`. -/
def trailsWith (pat s : Str) : Bool := leadsWith pat.reverse s.reverse

/-- Worker for `pySplit`.  Scans left to right; at each position, if the
separator starts there it is consumed and the accumulated chunk is emitted,
exactly like CPython's `str.split` with a non-empty separator.  The fuel is
structural so that the kernel can evaluate the function; `pySplit` passes
`s.length`, which the scan (dropping at least one character per step) never
exhausts, and the fuel-0 value is chosen to agree with the limit behaviour. -/
def pySplitAux (sep : Str) : ℕ → Str → Str → List Str
  | 0, s, acc => [acc.reverse ++ s]
  | fuel + 1, s, acc =>
    match s with
    | [] => [acc.reverse]
    | c :: cs =>
      if leadsWith sep (c :: cs) then
        acc.reverse :: pySplitAux sep fuel (cs.drop (sep.length - 1)) []
      else
        pySplitAux sep fuel cs (c :: acc)

/-- Python `s.split(sep)` for a non-empty separator. -/
def pySplit (sep s : Str) : List Str := pySplitAux sep s.length s []

/-- Worker for `pyReplace`; same leftmost non-overlapping scan as
CPython's `str.replace` with a non-empty pattern. -/
def pyReplaceAux (old new : Str) : ℕ → Str → Str
  | 0, s => s
  | fuel + 1, s =>
    match s with
    | [] => []
    | c :: cs =>
      if leadsWith old (c :: cs) then
        new ++ pyReplaceAux old new fuel (cs.drop (old.length - 1))
      else
        c :: pyReplaceAux old new fuel cs

/-- Python `s.replace(old, new)` for a non-empty `old`: every leftmost
non-overlapping occurrence is replaced. -/
def pyReplace (old new s : Str) : Str := pyReplaceAux old new s.length s

/-- The literal `" - "` used by the filename template and the scan. -/
def sepStr : Str := [' ', '-', ' ']

/-- The literal `".mp3"`. -/
def extStr : Str := ['.', 'm', 'p', '3']

/-- The literal `" -"` (a title ending in it defeats the filename scan). -/
def spaceDash : Str := [' ', '-']

/-- A flat playlist entry as produced by a segment query (`entries` array
element): `id`, `title`, `url`, optional `uploader` and `playlist_title`. -/
structure Entry where
  id : Str
  title : Str
  url : Str
  uploader : Option Str
  playlistTitle : Option Str
deriving DecidableEq

/-- One segment's parsed JSON document: its `entries` array plus the other
top-level fields, abstracted as `info` (the merge keeps the first collected
segment's other fields). -/
structure Playlist where
  entries : List Entry
  info : Str
deriving DecidableEq

/-- Outcome of one `yt-dlp -J --flat-playlist` segment call, as observed by
`fetch_playlist_segment`: non-zero exit; zero exit with a stdout that
`json.loads` cannot parse; or zero exit with a parsed payload. -/
inductive SegOutcome where
  | exitNonzero : SegOutcome
  | exitZeroBad : SegOutcome
  | exitZeroOk : Playlist → SegOutcome
deriving DecidableEq

/-- Outcome of one `yt-dlp` download invocation: `subprocess.run`'s return
code and captured `stderr`. -/
structure DlProc where
  returncode : Int
  stderr : Str

/-- The console lines the claims observe (emoji prefixes and incidental
prints such as the command echo are abstracted away; only the line kinds and
the data they carry are kept). -/
inductive Line where
  | couldNotFetch : Line
  | foundExisting : ℕ → Line
  | allUpToDate : Line
  | downloadingNew : ℕ → Line
  | startingDownload : Str → Line
  | downloaded : Str → Line
  | downloadFailed : Str → Str → Line
  | downloadedNewCount : ℕ → Line
  | syncComplete : Line
deriving DecidableEq

/-- `get_optimal_config()`.  Inputs: `os.cpu_count()` (Python `or 2` treats
both `None` and `0` as absent), the available memory in GiB (a nonnegative
real in the source; `int()` on it is floor), and the result of the playlist
size query (`None` models a non-zero exit).  Returns
`(workers, segment_size, total_videos)`. -/
def get_optimal_config (osCpuCount : Option ℕ) (available_memory_gb : ℚ)
    (sizeQuery : Option ℕ) : ℕ × ℕ × ℕ :=
  let cpu_count : ℕ :=
    match osCpuCount with
    | none => 2
    | some n => if n = 0 then 2 else n
  let base_workers := cpu_count * 2
  let max_workers_by_memory : ℕ := (⌊available_memory_gb * 2⌋).toNat
  let optimal_workers := min (min base_workers max_workers_by_memory) 8
  let workers := max 2 optimal_workers
  match sizeQuery with
  | some total_videos =>
      (workers, min 200 (max 100 (total_videos / (workers * 2))), total_videos)
  | none => (workers, 150, 0)

/-- `fetch_playlist_segment`: returns `json.loads(result.stdout)` on exit 0
(raising — `Except.error` — if the payload is unparsable) and `None` on a
non-zero exit. -/
def fetch_playlist_segment : SegOutcome → Except Unit (Option Playlist)
  | SegOutcome.exitNonzero => Except.ok none
  | SegOutcome.exitZeroBad => Except.error ()
  | SegOutcome.exitZeroOk p => Except.ok (some p)

/-- The `as_completed` collection loop of `fetch_playlist_info`: futures are
consumed in completion order (the order of `completed`); a `None` result is
logged and dropped, and `future.result()` re-raises a worker's exception,
which aborts the loop (modelled by `Except.error`). -/
def collectSegments : List SegOutcome → Except Unit (List Playlist)
  | [] => Except.ok []
  | o :: rest =>
    match fetch_playlist_segment o with
    | Except.error e => Except.error e
    | Except.ok none => collectSegments rest
    | Except.ok (some p) =>
      match collectSegments rest with
      | Except.error e => Except.error e
      | Except.ok ps => Except.ok (p :: ps)

/-- `fetch_playlist_info()`.  `completed` is the list of segment-call
outcomes in the order `as_completed` yields them.  The merge mirrors the
source exactly: `combined_playlist = segments[0]` aliases the first
collected segment, so `combined_playlist["entries"] = []` clears that
segment's `entries` list in place; the subsequent loop's first iteration
extends the (empty) list with itself, so only the entries of `segments[1:]`
are accumulated, in completion order. -/
def fetch_playlist_info (totalVideos : ℕ) (completed : List SegOutcome) :
    Except Unit (Option Playlist) :=
  if totalVideos = 0 then Except.ok none
  else
    match collectSegments completed with
    | Except.error e => Except.error e
    | Except.ok [] => Except.ok none
    | Except.ok (s0 :: rest) =>
      Except.ok (some { info := s0.info,
                        entries := rest.foldl (fun acc s => acc ++ s.entries) [] })

/-- `load_previous_metadata()`: the prior snapshot file, or `{"entries": []}`
if absent.  Note that `sync_playlist` never calls it. -/
def load_previous_metadata (file : Option Playlist) : Playlist :=
  file.getD { entries := [], info := [] }

/-- `save_metadata(metadata)`: the snapshot file's content after the write. -/
def save_metadata (metadata : Playlist) : Option Playlist :=
  some metadata

/-- `video_id = f.split(" - ")[-1].replace(".mp3", "")` — the identifier
extracted from one filename.  (`[-1]` on a `split` result is total: the
result is never empty; `getLastD` with a junk default models it.) -/
def extract_id (f : Str) : Str :=
  pyReplace extStr [] ((pySplit sepStr f).getLastD [])

/-- `get_existing_files()`: scan the download directory's filenames, keep
the `.mp3` ones, extract each identifier, and collect them as a set
(`dedup` models Python's `set`). -/
def get_existing_files (files : List Str) : List Str :=
  (files.filterMap fun f =>
    if trailsWith extStr f then some (extract_id f) else none).dedup

/-- The worklist comprehension of `parallel_download`:
`[entry for entry in playlist_data["entries"] if entry["id"] not in existing_files]`. -/
def diffWorklist (playlist_data : Playlist) (existing_files : List Str) : List Entry :=
  playlist_data.entries.filter fun entry => decide (entry.id ∉ existing_files)

/-- `download_audio(entry)` given its subprocess outcome: on exit 0 the
metadata is rewritten and the video id returned; otherwise the captured
stderr is printed with the failure line and `None` is returned.  The
`isinstance` guards of the source are statically true here because the
template and `entry["url"]` are strings by construction, and the
`update_metadata` tagging pass touches only the file, not the result. -/
def download_audio (proc : DlProc) (entry : Entry) : List Line × Option Str :=
  if proc.returncode = 0 then
    ([Line.startingDownload entry.title, Line.downloaded entry.title], some entry.id)
  else
    ([Line.startingDownload entry.title, Line.downloadFailed entry.title proc.stderr], none)

/-- `executor.map(download_audio, to_download)`: each item is handed to one
(and only one) `download_audio` invocation with its own subprocess outcome;
`outcomes k` is the outcome of the `k`-th invocation. -/
def downloadWave (outcomes : ℕ → DlProc) : List Entry → ℕ → List (List Line × Option Str)
  | [], _ => []
  | e :: rest, k => download_audio (outcomes k) e :: downloadWave outcomes rest (k + 1)

/-- Specification-side counter: how many of the wave's subprocess calls
exit 0 (the spec's success count). -/
def successCount (outcomes : ℕ → DlProc) : List Entry → ℕ → ℕ
  | [], _ => 0
  | _ :: rest, k =>
      (if (outcomes k).returncode = 0 then 1 else 0) + successCount outcomes rest (k + 1)

/-- `parallel_download(playlist_data, existing_files)`: computes the
worklist, short-circuits when it is empty, otherwise runs the wave and
returns `[r for r in results if r]` together with the printed lines. -/
def parallel_download (playlist_data : Playlist) (existing_files : List Str)
    (outcomes : ℕ → DlProc) : List Line × List Str :=
  let to_download := diffWorklist playlist_data existing_files
  if to_download.isEmpty then ([Line.allUpToDate], [])
  else
    let results := downloadWave outcomes to_download 0
    (Line.downloadingNew to_download.length :: (results.map Prod.fst).flatten,
     results.filterMap Prod.snd)

/-- All the externally determined inputs of one run of the script. -/
structure RunInput where
  totalVideos : ℕ
  completed : List SegOutcome
  dirFiles : List Str
  dlOutcomes : ℕ → DlProc
  metadataFileBefore : Option Playlist

/-- The observable outcome of one run: console lines, process exit code,
the argument of the `save_metadata` call (if any), the snapshot file's final
content, and the list returned by `parallel_download`. -/
structure RunOutput where
  lines : List Line
  exitCode : ℕ
  saved : Option Playlist
  metadataFileAfter : Option Playlist
  downloads : List Str

/-- `sync_playlist()` run under `if __name__ == "__main__"`.  A fetch that
yields `None` prints the error and returns — the interpreter still exits 0.
An exception escaping the fetch (unparsable segment payload) is uncaught:
traceback, non-zero exit, nothing written.  On success the downloads run,
the summary is printed and the snapshot is saved unconditionally. -/
def sync_playlist (inp : RunInput) : RunOutput :=
  match fetch_playlist_info inp.totalVideos inp.completed with
  | Except.error _ =>
      { lines := [], exitCode := 1, saved := none,
        metadataFileAfter := inp.metadataFileBefore, downloads := [] }
  | Except.ok none =>
      { lines := [Line.couldNotFetch], exitCode := 0, saved := none,
        metadataFileAfter := inp.metadataFileBefore, downloads := [] }
  | Except.ok (some playlist_data) =>
      let existing_files := get_existing_files inp.dirFiles
      let res := parallel_download playlist_data existing_files inp.dlOutcomes
      { lines := Line.foundExisting existing_files.length :: res.1
                   ++ (if res.2.isEmpty then [] else [Line.downloadedNewCount res.2.length])
                   ++ [Line.syncComplete],
        exitCode := 0,
        saved := some playlist_data,
        metadataFileAfter := save_metadata playlist_data,
        downloads := res.2 }

/-- The download worklist a run computes (empty when no snapshot is
fetched). -/
def syncWorklist (inp : RunInput) : List Entry :=
  match fetch_playlist_info inp.totalVideos inp.completed with
  | Except.ok (some playlist_data) =>
      diffWorklist playlist_data (get_existing_files inp.dirFiles)
  | _ => []

/-! ### Helper lemmas about the Python string primitives -/

theorem leadsWith_append_self : ∀ (p s : Str), leadsWith p (p ++ s) = true := by
  intro p
  induction p with
  | nil => intro s; rfl
  | cons c ps ih => intro s; simp [leadsWith, ih]

theorem leadsWith_append_left :
    ∀ (p s1 s2 : Str), p.length ≤ s1.length → leadsWith p (s1 ++ s2) = leadsWith p s1 := by
  intro p
  induction p with
  | nil => intro s1 s2 h; rfl
  | cons c ps ih =>
    intro s1 s2 h
    cases s1 with
    | nil => simp at h
    | cons d s1' =>
      simp only [List.cons_append, leadsWith, List.append_eq]
      rw [ih s1' s2 (by simpa using h)]

theorem containsSub_cons_elim {pat : Str} {c : Char} {cs : Str}
    (h : containsSub pat (c :: cs) = false) :
    leadsWith pat (c :: cs) = false ∧ containsSub pat cs = false := by
  simp only [containsSub, Bool.or_eq_false_iff] at h
  exact h

theorem containsSub_of_leadsWith {pat s : Str} (h : leadsWith pat s = true) :
    containsSub pat s = true := by
  cases s with
  | nil => simpa [containsSub] using h
  | cons c cs => simp [containsSub, h]

theorem pySplitAux_noMatch (pat : Str) :
    ∀ (fuel : ℕ) (s acc : Str), s.length ≤ fuel → containsSub pat s = false →
      pySplitAux pat fuel s acc = [acc.reverse ++ s] := by
  intro fuel
  induction fuel with
  | zero => intro s acc hl hc; rfl
  | succ fuel ih =>
    intro s acc hl hc
    cases s with
    | nil => simp [pySplitAux]
    | cons c cs =>
      obtain ⟨hlw, hcs⟩ := containsSub_cons_elim hc
      simp only [pySplitAux, hlw, Bool.false_eq_true, if_false]
      rw [ih cs (c :: acc) (by simp at hl; omega) hcs]
      simp

theorem getLastD_concat : ∀ (pre : List Str) (d z : Str), (pre ++ [z]).getLastD d = z := by
  intro pre
  induction pre with
  | nil => intro d z; rfl
  | cons p pre ih => intro d z; rw [List.cons_append, List.getLastD_cons]; exact ih p z

theorem containsSub_cons (pat : Str) (c : Char) (cs : Str) :
    containsSub pat (c :: cs) = (leadsWith pat (c :: cs) || containsSub pat cs) := rfl

theorem length_template (u b : Str) :
    (u ++ sepStr ++ b).length = u.length + (3 + b.length) := by
  simp [sepStr]
  omega

theorem length_ext (i : Str) : (i ++ extStr).length = i.length + 4 := by
  simp [extStr]

/-- Occurrences of `" - "` cannot straddle the `<id>.mp3` boundary: if the
identifier is free of `" - "`, so is `<id>.mp3`. -/
theorem containsSub_sep_ext :
    ∀ (i : Str), containsSub sepStr i = false → containsSub sepStr (i ++ extStr) = false := by
  intro i
  induction i with
  | nil => intro _; decide
  | cons c i' ih =>
    intro h
    obtain ⟨hlw, hi'⟩ := containsSub_cons_elim h
    have hrest := ih hi'
    have hstep : containsSub sepStr ((c :: i') ++ extStr)
        = (leadsWith sepStr (c :: (i' ++ extStr)) || containsSub sepStr (i' ++ extStr)) :=
      containsSub_cons sepStr c (i' ++ extStr)
    rw [hstep, hrest, Bool.or_false]
    cases i' with
    | nil =>
      have hff : ('-' == '.') = false := by decide
      simp [leadsWith, sepStr, extStr, hff]
    | cons d i'' =>
      cases i'' with
      | nil =>
        have hff : (' ' == '.') = false := by decide
        simp [leadsWith, sepStr, extStr, hff]
      | cons e i3 =>
        have hlen : sepStr.length ≤ (c :: d :: e :: i3).length := by
          simp [sepStr]
        show leadsWith sepStr ((c :: d :: e :: i3) ++ extStr) = false
        rw [leadsWith_append_left sepStr (c :: d :: e :: i3) extStr hlen]
        exact hlw

/-- The scan of `pySplitAux` over `u ++ " - " ++ b`, with `u` a suffix of a
title that does not end in `" -"` and `b` free of `" - "`: the scan always
consumes the explicit separator exactly, leaving `b` as the final chunk. -/
theorem pySplitAux_template (b : Str) (hb : containsSub sepStr b = false) :
    ∀ (fuel : ℕ) (u t acc : Str), trailsWith spaceDash t = false →
      (∃ v, t = v ++ u) → (u ++ sepStr ++ b).length ≤ fuel →
      ∃ pre, pySplitAux sepStr fuel (u ++ sepStr ++ b) acc = pre ++ [b] := by
  intro fuel
  induction fuel with
  | zero =>
    intro u t acc ht hu hl
    exfalso
    rw [length_template] at hl
    omega
  | succ fuel ih =>
    intro u t acc ht hu hl
    cases u with
    | nil =>
      have hmatch : leadsWith sepStr (' ' :: '-' :: ' ' :: b) = true :=
        leadsWith_append_self sepStr b
      refine ⟨[acc.reverse], ?_⟩
      show pySplitAux sepStr (fuel + 1) (' ' :: '-' :: ' ' :: b) acc = [acc.reverse] ++ [b]
      simp only [pySplitAux, hmatch, if_true]
      rw [show (('-' :: ' ' :: b).drop (sepStr.length - 1)) = b from rfl]
      rw [pySplitAux_noMatch sepStr fuel b []
        (by rw [length_template] at hl; simp at hl; omega) hb]
      simp
    | cons c u' =>
      cases hmatch : leadsWith sepStr (c :: (u' ++ sepStr ++ b)) with
      | false =>
        obtain ⟨v, hv⟩ := hu
        obtain ⟨pre, hpre⟩ := ih u' t (c :: acc) ht
          ⟨v ++ [c], by rw [hv]; simp⟩
          (by rw [length_template] at hl ⊢; simp at hl; omega)
        refine ⟨pre, ?_⟩
        show pySplitAux sepStr (fuel + 1) (c :: (u' ++ sepStr ++ b)) acc = pre ++ [b]
        simp only [pySplitAux, hmatch, Bool.false_eq_true, if_false]
        exact hpre
      | true =>
        cases u' with
        | nil =>
          exfalso
          have hff : ('-' == ' ') = false := by decide
          have h1 : leadsWith sepStr (c :: ' ' :: '-' :: ' ' :: b) = true := hmatch
          simp [leadsWith, sepStr, hff] at h1
        | cons d u'' =>
          cases u'' with
          | nil =>
            exfalso
            have h1 : leadsWith sepStr (c :: d :: ' ' :: '-' :: ' ' :: b) = true := hmatch
            simp [leadsWith, sepStr] at h1
            obtain ⟨hc', hd'⟩ := h1
            obtain ⟨v, hv⟩ := hu
            have hbad : trailsWith spaceDash t = true := by
              rw [hv, ← hc', ← hd']
              rw [trailsWith, List.reverse_append]
              exact leadsWith_append_self spaceDash.reverse v.reverse
            rw [hbad] at ht
            simp at ht
          | cons e u3 =>
            obtain ⟨v, hv⟩ := hu
            obtain ⟨pre, hpre⟩ := ih u3 t [] ht
              ⟨v ++ [c, d, e], by rw [hv]; simp⟩
              (by rw [length_template] at hl ⊢; simp at hl; omega)
            refine ⟨acc.reverse :: pre, ?_⟩
            show pySplitAux sepStr (fuel + 1)
              (c :: ((d :: e :: u3) ++ sepStr ++ b)) acc = (acc.reverse :: pre) ++ [b]
            simp only [pySplitAux, List.cons_append]
            rw [show leadsWith sepStr (c :: d :: e :: (u3 ++ sepStr ++ b)) = true from hmatch]
            simp only [if_true]
            rw [show ((d :: e :: (u3 ++ sepStr ++ b)).drop (sepStr.length - 1))
                  = u3 ++ sepStr ++ b from rfl]
            rw [hpre]

/-- Stripping the single trailing `".mp3"` occurrence with Python
`replace`: when the identifier is free of `".mp3"`, the only occurrence in
`<id>.mp3` is the final one (no straddle is possible for this pattern). -/
theorem pyReplace_strip_ext :
    ∀ (fuel : ℕ) (i : Str), (i ++ extStr).length ≤ fuel → containsSub extStr i = false →
      pyReplaceAux extStr [] fuel (i ++ extStr) = i := by
  intro fuel
  induction fuel with
  | zero =>
    intro i hl hc
    exfalso
    rw [length_ext] at hl
    omega
  | succ fuel ih =>
    intro i hl hc
    cases i with
    | nil =>
      have hnil : ∀ f, pyReplaceAux extStr [] f ([] : Str) = [] := by
        intro f; cases f <;> rfl
      show pyReplaceAux extStr [] (fuel + 1) ('.' :: 'm' :: 'p' :: '3' :: []) = []
      have hm : leadsWith extStr ('.' :: 'm' :: 'p' :: '3' :: []) = true := by decide
      simp only [pyReplaceAux, hm, if_true]
      rw [show (('m' :: 'p' :: '3' :: []).drop (extStr.length - 1)) = ([] : Str) from rfl]
      rw [hnil fuel]
      rfl
    | cons c i' =>
      obtain ⟨hlw, hi'⟩ := containsSub_cons_elim hc
      have hnm : leadsWith extStr (c :: (i' ++ extStr)) = false := by
        cases i' with
        | nil =>
          have hff : ('m' == '.') = false := by decide
          simp [leadsWith, extStr, hff]
        | cons d i'' =>
          cases i'' with
          | nil =>
            have hff : ('p' == '.') = false := by decide
            simp [leadsWith, extStr, hff]
          | cons e i3 =>
            cases i3 with
            | nil =>
              have hff : ('3' == '.') = false := by decide
              simp [leadsWith, extStr, hff]
            | cons f i4 =>
              have hlen : extStr.length ≤ (c :: d :: e :: f :: i4).length := by
                simp [extStr]
              show leadsWith extStr ((c :: d :: e :: f :: i4) ++ extStr) = false
              rw [leadsWith_append_left extStr (c :: d :: e :: f :: i4) extStr hlen]
              exact hlw
      show pyReplaceAux extStr [] (fuel + 1) (c :: (i' ++ extStr)) = c :: i'
      simp only [pyReplaceAux, hnm, Bool.false_eq_true, if_false]
      rw [ih i' (by rw [length_ext] at hl ⊢; simp at hl; omega) hi']

theorem trailsWith_append (p s : Str) : trailsWith p (s ++ p) = true := by
  rw [trailsWith, List.reverse_append]
  exact leadsWith_append_self p.reverse s.reverse

theorem mem_get_existing_files {files : List Str} {f : Str}
    (hf : f ∈ files) (hext : trailsWith extStr f = true) :
    extract_id f ∈ get_existing_files files := by
  rw [get_existing_files, List.mem_dedup, List.mem_filterMap]
  exact ⟨f, hf, by simp [hext]⟩

/-! ### Helper lemmas about the fetcher, the diff and the download wave -/

theorem collectSegments_ok_of_no_bad :
    ∀ (l : List SegOutcome), SegOutcome.exitZeroBad ∉ l →
      ∃ ps, collectSegments l = Except.ok ps := by
  intro l
  induction l with
  | nil => intro _; exact ⟨[], rfl⟩
  | cons o rest ih =>
    intro h
    have hrest : SegOutcome.exitZeroBad ∉ rest := fun hm => h (List.mem_cons_of_mem _ hm)
    obtain ⟨ps, hps⟩ := ih hrest
    cases o with
    | exitNonzero => exact ⟨ps, by simp [collectSegments, fetch_playlist_segment, hps]⟩
    | exitZeroBad => exact absurd (List.mem_cons_self _ _) h
    | exitZeroOk p => exact ⟨p :: ps, by simp [collectSegments, fetch_playlist_segment, hps]⟩

theorem map_id_filter_notMem (ex : List Str) :
    ∀ (l : List Entry),
      (l.filter fun e => decide (e.id ∉ ex)).map Entry.id
        = (l.map Entry.id).filter fun s => decide (s ∉ ex) := by
  intro l
  induction l with
  | nil => rfl
  | cons e rest ih =>
    simp only [decide_not] at ih
    by_cases h : e.id ∈ ex <;> simp [List.filter_cons, h, ih]

/-- A junk entry, used only as the `getD` default. -/
def noEntry : Entry := ⟨[], [], [], none, none⟩

/-- A junk per-item result, used only as the `getD` default. -/
def noResult : List Line × Option Str := ([], none)

theorem downloadWave_length (outcomes : ℕ → DlProc) :
    ∀ (items : List Entry) (k : ℕ), (downloadWave outcomes items k).length = items.length := by
  intro items
  induction items with
  | nil => intro k; rfl
  | cons e rest ih => intro k; simp [downloadWave, ih]

theorem downloadWave_getD (outcomes : ℕ → DlProc) :
    ∀ (items : List Entry) (k j : ℕ), j < items.length →
      (downloadWave outcomes items k).getD j noResult
        = download_audio (outcomes (k + j)) (items.getD j noEntry) := by
  intro items
  induction items with
  | nil => intro k j h; simp at h
  | cons e rest ih =>
    intro k j h
    cases j with
    | zero => simp [downloadWave]
    | succ j' =>
      have hj : j' < rest.length := by simp at h; omega
      simp only [downloadWave, List.getD_cons_succ]
      rw [ih (k + 1) j' hj, show k + 1 + j' = k + (j' + 1) from by omega]

theorem downloadWave_successes (outcomes : ℕ → DlProc) :
    ∀ (items : List Entry) (k : ℕ),
      ((downloadWave outcomes items k).filterMap Prod.snd).length
        = successCount outcomes items k := by
  intro items
  induction items with
  | nil => intro k; rfl
  | cons e rest ih =>
    intro k
    by_cases h : (outcomes k).returncode = 0
    · simp [downloadWave, download_audio, successCount, h, ih]
      omega
    · simp [downloadWave, download_audio, successCount, h, ih]

/-! ### Concrete fixtures used by the closed theorems -/

/-- A minimal concrete entry whose fields are the one-character string `c`. -/
def mkEntry (c : Char) : Entry := ⟨[c], [c], [c], none, none⟩

/-- Concrete segment covering the low index range. -/
def segA : Playlist := ⟨[mkEntry 'a', mkEntry 'b'], ['A']⟩

/-- Concrete segment covering the high index range. -/
def segB : Playlist := ⟨[mkEntry 'c', mkEntry 'd'], ['B']⟩

/-! ### Claim theorems -/

/-- C1: the claim states that the merged snapshot's entries equal the
concatenation of the segments' entries in ascending segment-index order
regardless of completion order.  The code violates this twice over:
segments are appended in completion order, and the merge aliases the first
collected segment (`combined_playlist = segments[0]`), so clearing
`combined_playlist["entries"]` destroys that segment's entries before the
extend loop reads them.  Evaluating the embedded `fetch_playlist_info` at
two segments `segA` (low indices) and `segB` (high indices): when `segB`
completes first the merged entries are `segA`'s alone — not the claimed
index-order concatenation — and swapping the completion order changes the
result. -/
theorem c1_merge_eval :
    fetch_playlist_info 200 [SegOutcome.exitZeroOk segB, SegOutcome.exitZeroOk segA]
      = Except.ok (some { info := ['B'], entries := [mkEntry 'a', mkEntry 'b'] })
    ∧ fetch_playlist_info 200 [SegOutcome.exitZeroOk segA, SegOutcome.exitZeroOk segB]
      = Except.ok (some { info := ['A'], entries := [mkEntry 'c', mkEntry 'd'] })
    ∧ [mkEntry 'a', mkEntry 'b'] ≠ segA.entries ++ segB.entries :=
  ⟨rfl, rfl, by decide⟩

/-- C3: the claim states a failed segment fetch never crashes the fetch and
the fetch returns `None` exactly when every segment failed or
`totalItems == 0`.  The code honours this only for the non-zero-exit
failure mode; a segment call that exits 0 with an unparsable payload makes
`json.loads` raise, `future.result()` re-raises it uncaught, and the whole
fetch crashes instead of returning.  The theorem evaluates the embedded
fetch at the failing input (one unparsable segment), and at the two
handled modes for contrast (a non-zero-exit segment is dropped and yields
`None`; `totalItems = 0` yields `None` without fetching). -/
theorem c3_unparsable_crash_eval :
    fetch_playlist_info 5 [SegOutcome.exitZeroBad] = Except.error ()
    ∧ fetch_playlist_info 5 [SegOutcome.exitNonzero] = Except.ok none
    ∧ fetch_playlist_info 0 [] = Except.ok none :=
  ⟨rfl, rfl, rfl⟩

/-- C9: two runs that differ only in the persisted snapshot file's prior
content compute the same worklist, the same downloads, the same saved
snapshot, the same console lines and the same exit code — `sync_playlist`
never reads the previous snapshot (`load_previous_metadata` is not
invoked), so run behaviour depends only on the fetch results and the
directory scan. -/
theorem c9_snapshot_noninterference (tv : ℕ) (completed : List SegOutcome)
    (dirFiles : List Str) (dl : ℕ → DlProc) (m1 m2 : Option Playlist) :
    syncWorklist ⟨tv, completed, dirFiles, dl, m1⟩
      = syncWorklist ⟨tv, completed, dirFiles, dl, m2⟩
    ∧ (sync_playlist ⟨tv, completed, dirFiles, dl, m1⟩).downloads
        = (sync_playlist ⟨tv, completed, dirFiles, dl, m2⟩).downloads
    ∧ (sync_playlist ⟨tv, completed, dirFiles, dl, m1⟩).saved
        = (sync_playlist ⟨tv, completed, dirFiles, dl, m2⟩).saved
    ∧ (sync_playlist ⟨tv, completed, dirFiles, dl, m1⟩).lines
        = (sync_playlist ⟨tv, completed, dirFiles, dl, m2⟩).lines
    ∧ (sync_playlist ⟨tv, completed, dirFiles, dl, m1⟩).exitCode
        = (sync_playlist ⟨tv, completed, dirFiles, dl, m2⟩).exitCode := by
  cases h : fetch_playlist_info tv completed with
  | error e => simp [sync_playlist, syncWorklist, h]
  | ok r => cases r <;> simp [sync_playlist, syncWorklist, h]

/-- C6: whenever the playlist fetch yields no snapshot (`None`), the save
step is not invoked and the previously persisted snapshot file is left
unchanged. -/
theorem c6_no_overwrite_on_failed_fetch (inp : RunInput)
    (h : fetch_playlist_info inp.totalVideos inp.completed = Except.ok none) :
    (sync_playlist inp).saved = none
    ∧ (sync_playlist inp).metadataFileAfter = inp.metadataFileBefore := by
  simp [sync_playlist, h]

/-- A concrete prior snapshot for the C6 witness. -/
def prevSnapshot : Playlist := ⟨[mkEntry 'p'], ['P']⟩

/-- A concrete run whose size query failed (`totalItems = 0`), with a prior
snapshot on disk. -/
def c6Input : RunInput := ⟨0, [], [], (fun _ => ⟨0, []⟩), some prevSnapshot⟩

/-- C6 witness: on the concrete failed-fetch run, nothing is saved and the
prior snapshot file survives. -/
theorem c6_witness :
    (sync_playlist c6Input).saved = none
    ∧ (sync_playlist c6Input).metadataFileAfter = some prevSnapshot := by
  have h := c6_no_overwrite_on_failed_fetch c6Input rfl
  exact ⟨h.1, h.2.trans rfl⟩

/-- A concrete run on which the playlist could not be fetched at all
(`totalItems = 0` because the size query failed). -/
def c2FailInput : RunInput := ⟨0, [], [], (fun _ => ⟨0, []⟩), none⟩

/-- C2 counterexample: the claim says the process exits with a non-zero
code exactly when the playlist could not be fetched at all.  On this
concrete run the fetch yields no snapshot (total fetch failure), yet
`sync_playlist` merely prints the error and returns, so the interpreter
exits 0 — refuting the claimed non-zero exit. -/
theorem c2_counterexample :
    fetch_playlist_info c2FailInput.totalVideos c2FailInput.completed = Except.ok none
    ∧ (sync_playlist c2FailInput).exitCode = 0 :=
  ⟨rfl, rfl⟩

/-- C2 amended: for every run whose segment calls never return an
unparsable zero-exit payload (the one mode that raises and crashes), the
process exits 0 — even when some downloads fail, and also when the
playlist could not be fetched at all; a total fetch failure only prints
the error line, performs no downloads and saves nothing, while a
successful fetch prints the closing summary line. -/
theorem c2_amended_exit_zero (inp : RunInput)
    (hgood : SegOutcome.exitZeroBad ∉ inp.completed) :
    (sync_playlist inp).exitCode = 0
    ∧ (fetch_playlist_info inp.totalVideos inp.completed = Except.ok none →
        Line.couldNotFetch ∈ (sync_playlist inp).lines
        ∧ (sync_playlist inp).downloads = [] ∧ (sync_playlist inp).saved = none)
    ∧ (∀ pd, fetch_playlist_info inp.totalVideos inp.completed = Except.ok (some pd) →
        Line.syncComplete ∈ (sync_playlist inp).lines) := by
  obtain ⟨ps, hps⟩ := collectSegments_ok_of_no_bad inp.completed hgood
  have hne : ∀ e, fetch_playlist_info inp.totalVideos inp.completed ≠ Except.error e := by
    intro e hcontra
    by_cases h0 : inp.totalVideos = 0
    · simp [fetch_playlist_info, h0] at hcontra
    · simp only [fetch_playlist_info, h0, if_false, hps] at hcontra
      cases ps <;> simp at hcontra
  cases h : fetch_playlist_info inp.totalVideos inp.completed with
  | error e => exact absurd h (hne e)
  | ok r =>
    cases r with
    | none =>
      refine ⟨by simp [sync_playlist, h], fun _ => by simp [sync_playlist, h],
              fun pd hpd => ?_⟩
      simp at hpd
    | some pd =>
      refine ⟨by simp [sync_playlist, h], fun hnone => ?_, fun pd2 hpd2 => ?_⟩
      · simp at hnone
      · simp [sync_playlist, h]

/-- A concrete run with a fully successful fetch and one failing download
call. -/
def c2OkInput : RunInput :=
  ⟨4, [SegOutcome.exitZeroOk segA, SegOutcome.exitZeroOk segB], [],
   (fun _ => ⟨1, ['e']⟩), none⟩

/-- C2 amended witness: the concrete good-fetch run satisfies the amended
theorem's hypothesis and exits 0. -/
theorem c2_amended_witness :
    SegOutcome.exitZeroBad ∉ c2OkInput.completed
    ∧ (sync_playlist c2OkInput).exitCode = 0 := by
  have hg : SegOutcome.exitZeroBad ∉ c2OkInput.completed := by decide
  exact ⟨hg, (c2_amended_exit_zero c2OkInput hg).1⟩

/-- C4: for every host configuration (`cpuCores ≥ 1`,
`availableMemoryGiB ≥ 0`, here a natural number of GiB) and every
successfully queried `totalItems > 0`, the planner yields
`workerCount = clamp(min(2*cpuCores, 2*availableMemoryGiB), 2, 8) ∈ [2,8]`
and `segmentSize = clamp(totalItems / (2*workerCount), 100, 200) ∈
[100,200]` (integer division, as in the source's `//`). -/
theorem c4_planner (c m t : ℕ) (hc : 1 ≤ c) (_ht : 0 < t) :
    ∃ w s, get_optimal_config (some c) (m : ℚ) (some t) = (w, s, t)
      ∧ w = max 2 (min (min (2 * c) (2 * m)) 8)
      ∧ 2 ≤ w ∧ w ≤ 8
      ∧ s = max 100 (min (t / (2 * w)) 200)
      ∧ 100 ≤ s ∧ s ≤ 200 := by
  have hc0 : ¬ c = 0 := by omega
  have hfl : (⌊(m : ℚ) * 2⌋).toNat = m * 2 := by
    have h1 : ((m : ℚ) * 2) = ((m * 2 : ℕ) : ℚ) := by push_cast; ring
    rw [h1, Int.floor_natCast, Int.toNat_natCast]
  refine ⟨max 2 (min (min (c * 2) (m * 2)) 8),
          min 200 (max 100 (t / (max 2 (min (min (c * 2) (m * 2)) 8) * 2))),
          ?_, by omega, by omega, by omega, ?_, by omega, by omega⟩
  · simp only [get_optimal_config, hc0, if_false, hfl]
  · have hw : max 2 (min (min (c * 2) (m * 2)) 8)
        = max 2 (min (min (2 * c) (2 * m)) 8) := by omega
    rw [hw, Nat.mul_comm (max 2 (min (min (2 * c) (2 * m)) 8)) 2]
    omega

/-- C4 witness: a concrete host (4 cores, 8 GiB free) and a 1000-item
playlist satisfy the hypotheses and the planner contract. -/
theorem c4_witness :
    (1 ≤ 4 ∧ 0 < 1000)
    ∧ ∃ w s, get_optimal_config (some 4) ((8 : ℕ) : ℚ) (some 1000) = (w, s, 1000)
        ∧ w = max 2 (min (min (2 * 4) (2 * 8)) 8)
        ∧ 2 ≤ w ∧ w ≤ 8
        ∧ s = max 100 (min (1000 / (2 * w)) 200)
        ∧ 100 ≤ s ∧ s ≤ 200 :=
  ⟨⟨by decide, by decide⟩, c4_planner 4 8 1000 (by decide) (by decide)⟩

/-- C5: the computed download worklist is a sublist of the remote entries
(remote order preserved), contains exactly the entries whose `id` is not in
the local set, and depends on nothing but the `id` fields: replacing the
remote snapshot by any snapshot with the same id sequence (titles, urls and
all other fields arbitrary) leaves the worklist's id sequence unchanged.
The embedded computation is a pure function, so it has no side effects. -/
theorem c5_diff_engine (playlist_data other : Playlist) (existing_files : List Str)
    (hids : playlist_data.entries.map Entry.id = other.entries.map Entry.id) :
    List.Sublist (diffWorklist playlist_data existing_files) playlist_data.entries
    ∧ (∀ e, e ∈ diffWorklist playlist_data existing_files
          ↔ e ∈ playlist_data.entries ∧ e.id ∉ existing_files)
    ∧ (diffWorklist playlist_data existing_files).map Entry.id
        = (diffWorklist other existing_files).map Entry.id := by
  refine ⟨List.filter_sublist _, fun e => ?_, ?_⟩
  · simp [diffWorklist, List.mem_filter]
  · rw [diffWorklist, diffWorklist, map_id_filter_notMem, map_id_filter_notMem, hids]

/-- A concrete remote snapshot for the C5 witness. -/
def c5Remote : Playlist := ⟨[mkEntry 'a', mkEntry 'b'], []⟩

/-- The same id sequence as `c5Remote` with every other field changed. -/
def c5Remote2 : Playlist :=
  ⟨[⟨['a'], ['t'], ['u'], some ['x'], none⟩, ⟨['b'], ['s'], ['v'], none, some ['y']⟩], ['Z']⟩

/-- C5 witness: with local set `{"b"}`, entry `a` is on the worklist, and
the id-only dependence holds between the two concrete snapshots. -/
theorem c5_witness :
    mkEntry 'a' ∈ diffWorklist c5Remote [['b']]
    ∧ (diffWorklist c5Remote [['b']]).map Entry.id
        = (diffWorklist c5Remote2 [['b']]).map Entry.id := by
  have h := c5_diff_engine c5Remote c5Remote2 [['b']] (by decide)
  exact ⟨(h.2.1 (mkEntry 'a')).mpr (by decide), h.2.2⟩

/-- C7: after a first run whose downloads all succeeded, the local id set
contains every id of the first worklist, so the second run's worklist
`diff(remote, local ∪ ids(diff(remote, local)))` is empty and
`parallel_download` performs zero downloads, reporting everything up to
date. -/
theorem c7_second_run_idempotent (playlist_data : Playlist) (localIds : List Str)
    (outcomes : ℕ → DlProc) :
    diffWorklist playlist_data
        (localIds ++ (diffWorklist playlist_data localIds).map Entry.id) = []
    ∧ parallel_download playlist_data
        (localIds ++ (diffWorklist playlist_data localIds).map Entry.id) outcomes
      = ([Line.allUpToDate], []) := by
  have hempty : diffWorklist playlist_data
      (localIds ++ (diffWorklist playlist_data localIds).map Entry.id) = [] := by
    rw [diffWorklist, List.filter_eq_nil_iff]
    intro e he
    simp only [decide_eq_true_eq, not_not]
    rw [List.mem_append]
    by_cases h : e.id ∈ localIds
    · exact Or.inl h
    · refine Or.inr (List.mem_map.mpr ⟨e, ?_, rfl⟩)
      rw [diffWorklist, List.mem_filter]
      exact ⟨he, by simpa using h⟩
  refine ⟨hempty, ?_⟩
  simp [parallel_download, hempty]

/-- C8: in a download wave, each item is handed to exactly one
`download_audio` invocation whose result depends only on that item and its
own subprocess outcome; an item whose call exits non-zero produces the
failure record carrying the captured stderr and the `None` result (no
retry); every item still receives a result (nothing is cancelled); the
success count equals the number of zero-exit calls, so failures are
excluded from it; and changing one item's subprocess outcome leaves every
other item's result unchanged. -/
theorem c8_failure_isolation (outcomes outcomes2 : ℕ → DlProc)
    (items : List Entry) (j : ℕ) (hj : j < items.length) :
    (downloadWave outcomes items 0).getD j noResult
      = download_audio (outcomes j) (items.getD j noEntry)
    ∧ ((outcomes j).returncode ≠ 0 →
        (downloadWave outcomes items 0).getD j noResult
          = ([Line.startingDownload (items.getD j noEntry).title,
              Line.downloadFailed (items.getD j noEntry).title (outcomes j).stderr], none))
    ∧ (downloadWave outcomes items 0).length = items.length
    ∧ ((downloadWave outcomes items 0).filterMap Prod.snd).length
        = successCount outcomes items 0
    ∧ ((∀ k, k ≠ j → outcomes2 k = outcomes k) →
        ∀ i, i < items.length → i ≠ j →
          (downloadWave outcomes2 items 0).getD i noResult
            = (downloadWave outcomes items 0).getD i noResult) := by
  have hg := downloadWave_getD outcomes items 0 j hj
  rw [Nat.zero_add] at hg
  refine ⟨hg, fun hfail => ?_, downloadWave_length outcomes items 0,
          downloadWave_successes outcomes items 0, fun hagree i hi hne => ?_⟩
  · rw [hg]
    simp [download_audio, hfail]
  · have h1 := downloadWave_getD outcomes2 items 0 i hi
    have h2 := downloadWave_getD outcomes items 0 i hi
    rw [Nat.zero_add] at h1 h2
    rw [h1, h2, hagree i hne]

/-- Concrete three-item worklist for the C8 witness. -/
def c8Items : List Entry := [mkEntry 'x', mkEntry 'y', mkEntry 'z']

/-- Concrete outcomes: the middle download fails with stderr `err`. -/
def c8Outcomes : ℕ → DlProc := fun k => if k = 1 then ⟨1, ['e', 'r', 'r']⟩ else ⟨0, []⟩

/-- C8 witness: the failing middle item yields the failure record with its
stderr and a `None` result, and the success count identity holds. -/
theorem c8_witness :
    (downloadWave c8Outcomes c8Items 0).getD 1 noResult
      = ([Line.startingDownload ['y'], Line.downloadFailed ['y'] ['e', 'r', 'r']], none)
    ∧ ((downloadWave c8Outcomes c8Items 0).filterMap Prod.snd).length
        = successCount c8Outcomes c8Items 0 := by
  have h := c8_failure_isolation c8Outcomes c8Outcomes c8Items 1 (by decide)
  exact ⟨(h.2.1 (by decide)).trans (by decide), h.2.2.2.1⟩

/-- C10 counterexample: the claim asserts that whenever the identifier
contains neither `" - "` nor `".mp3"`, scanning a directory containing
`<t> - <i>.mp3` yields a set containing `i` — for *every* title.  Take
`t = "x -"` and `i = "w"`: the filename is `"x - - w.mp3"`, the split on
`" - "` cuts at the leftmost separator (inside the title's trailing
`" -"` followed by the template's `" - "`), the last chunk is
`"- w.mp3"`, and the extracted identifier is `"- w"`, not `"w"`. -/
theorem c10_counterexample :
    containsSub sepStr ['w'] = false
    ∧ containsSub extStr ['w'] = false
    ∧ get_existing_files [['x', ' ', '-', ' ', '-', ' ', 'w', '.', 'm', 'p', '3']]
        = [['-', ' ', 'w']]
    ∧ (['w'] : Str) ∉ get_existing_files
        [['x', ' ', '-', ' ', '-', ' ', 'w', '.', 'm', 'p', '3']] :=
  ⟨by decide, by decide, by decide, by decide⟩

/-- C10 amended: for every title `t` and identifier `i` such that `i`
contains neither `" - "` nor `".mp3"` *and the title does not end in
`" -"`*, scanning a directory containing `<t> - <i>.mp3` (or the bare
`<i>.mp3`, which needs no condition on `t`) yields a local-identifier set
containing `i`; titles that merely contain `" - "` in the middle still
round-trip, because extraction keeps the substring after the last consumed
`" - "` and strips `".mp3"`. -/
theorem c10_amended_roundtrip (t i : Str)
    (hsep : containsSub sepStr i = false)
    (hext : containsSub extStr i = false)
    (ht : trailsWith spaceDash t = false) :
    extract_id (t ++ sepStr ++ i ++ extStr) = i
    ∧ extract_id (i ++ extStr) = i
    ∧ ∀ files : List Str,
        (t ++ sepStr ++ i ++ extStr) ∈ files ∨ (i ++ extStr) ∈ files →
        i ∈ get_existing_files files := by
  have hbsep : containsSub sepStr (i ++ extStr) = false := containsSub_sep_ext i hsep
  have h1 : extract_id (t ++ sepStr ++ i ++ extStr) = i := by
    obtain ⟨pre, hpre⟩ := pySplitAux_template (i ++ extStr) hbsep
      ((t ++ sepStr ++ (i ++ extStr)).length) t t [] ht ⟨[], rfl⟩ (le_refl _)
    rw [extract_id, pySplit, List.append_assoc (t ++ sepStr) i extStr,
        hpre, getLastD_concat, pyReplace]
    exact pyReplace_strip_ext (i ++ extStr).length i (le_refl _) hext
  have h2 : extract_id (i ++ extStr) = i := by
    rw [extract_id, pySplit,
        pySplitAux_noMatch sepStr (i ++ extStr).length (i ++ extStr) [] (le_refl _) hbsep]
    show pyReplace extStr [] (i ++ extStr) = i
    rw [pyReplace]
    exact pyReplace_strip_ext (i ++ extStr).length i (le_refl _) hext
  refine ⟨h1, h2, fun files hf => ?_⟩
  cases hf with
  | inl hmem =>
    have hend : trailsWith extStr (t ++ sepStr ++ i ++ extStr) = true :=
      trailsWith_append extStr (t ++ sepStr ++ i)
    have := mem_get_existing_files hmem hend
    rw [h1] at this
    exact this
  | inr hmem =>
    have := mem_get_existing_files hmem (trailsWith_append extStr i)
    rw [h2] at this
    exact this

/-- C10 amended witness: the title `"a - b"` (itself containing `" - "`)
and identifier `"id"` satisfy the amended hypotheses, and the scan of a
directory holding the templated filename recovers `"id"`. -/
theorem c10_witness :
    (containsSub sepStr ['i', 'd'] = false
      ∧ containsSub extStr ['i', 'd'] = false
      ∧ trailsWith spaceDash ['a', ' ', '-', ' ', 'b'] = false)
    ∧ (['i', 'd'] : Str) ∈ get_existing_files
        [['a', ' ', '-', ' ', 'b'] ++ sepStr ++ ['i', 'd'] ++ extStr] := by
  refine ⟨⟨by decide, by decide, by decide⟩, ?_⟩
  exact (c10_amended_roundtrip ['a', ' ', '-', ' ', 'b'] ['i', 'd']
    (by decide) (by decide) (by decide)).2.2 _ (Or.inl (by simp))

end SyncJam
